import Mathlib

/-!
Verification of the TasteLanc analytics backfill scripts
(`scripts/backfill-analytics.py` and `scripts/backfill-clicks-impressions.py`)
against their natural-language specification.

The two Python scripts are shallowly embedded below.  Randomness is made
explicit: every value the scripts draw from `random` (uniform base scores,
Gaussian counts, visitor choices, sampled restaurant subsets, per-event
timestamps, ...) appears here as an input — a "plan" — so that a statement
quantified over all plans is exactly a statement that holds for every outcome
of the random draws.  Python floats are modelled as rationals `ℚ` (the
properties at stake are exact order/field facts, not rounding facts), machine
integers as `ℤ`/`ℕ`, timestamps as minutes relative to the script constant
`NOW`, and the fatal path of `main` as `Except`.
-/

namespace Backfill

/-! ## Popularity Model
`backfill-analytics.py` lines 123-150 and `backfill-clicks-impressions.py`
lines 98-110.  A restaurant row carries its id, its (truthy) average rating if
any, whether its tier is the premium tier constant, and the per-restaurant
`random.uniform(1, 3)` base draw. Content flags are set-membership queries
against the loaded content tables, exactly as `rid in has_hh` etc. -/

structure Restaurant where
  rid : ℕ
  rating : Option ℚ
  premium : Bool
  base : ℚ
deriving DecidableEq

/-- Raw score of `backfill-analytics.py` lines 126-145: base draw plus content
bonuses (happy hour 1.5, menu 1.0, events 2.0, specials 1.0), plus
`(average_rating - 3.0) * 0.5` when a truthy rating is present, plus 1.5 for
the premium tier, floored by `max(score, 0.5)`. -/
def rawScoreA (hh menu ev sp : List ℕ) (r : Restaurant) : ℚ :=
  max (r.base
    + (if r.rid ∈ hh then 3/2 else 0)
    + (if r.rid ∈ menu then 1 else 0)
    + (if r.rid ∈ ev then 2 else 0)
    + (if r.rid ∈ sp then 1 else 0)
    + (match r.rating with
       | some a => (a - 3) / 2
       | none => 0)
    + (if r.premium then 3/2 else 0)) (1/2)

/-- Raw score of `backfill-clicks-impressions.py` lines 99-107: same structure
but only the happy-hour and events content bonuses. -/
def rawScoreCI (hh ev : List ℕ) (r : Restaurant) : ℚ :=
  max (r.base
    + (if r.rid ∈ hh then 3/2 else 0)
    + (if r.rid ∈ ev then 2 else 0)
    + (match r.rating with
       | some a => (a - 3) / 2
       | none => 0)
    + (if r.premium then 3/2 else 0)) (1/2)

/-- Python `max()` over an iterable: raises `ValueError` (here `none`) on an
empty input, otherwise folds binary `max` over the elements. -/
def pyMax : List ℚ → Option ℚ
  | [] => none
  | x :: xs => some (xs.foldl max x)

/-- Normalisation step (`popularity[rid] = popularity[rid] / max_pop`,
analytics lines 147-150, clicks-impressions lines 108-110): every score is
divided by `max_pop = max(popularity.values())`. -/
def normalizeWeights (scores : List ℚ) : Option (List ℚ) :=
  match pyMax scores with
  | none => none
  | some m => some (scores.map (fun s => s / m))

/-- Popularity weights of the analytics variant. -/
def popularityA (hh menu ev sp : List ℕ) (rs : List Restaurant) : Option (List ℚ) :=
  normalizeWeights (rs.map (rawScoreA hh menu ev sp))

/-- Popularity weights of the clicks-impressions variant. -/
def popularityCI (hh ev : List ℕ) (rs : List Restaurant) : Option (List ℚ) :=
  normalizeWeights (rs.map (rawScoreCI hh ev))

theorem le_foldl_max (xs : List ℚ) (x : ℚ) : x ≤ xs.foldl max x := by
  induction xs generalizing x with
  | nil => exact le_refl x
  | cons y ys ih => exact le_trans (le_max_left x y) (ih (max x y))

theorem mem_le_foldl_max (xs : List ℚ) (x s : ℚ) (hs : s ∈ xs) :
    s ≤ xs.foldl max x := by
  induction xs generalizing x with
  | nil => cases hs
  | cons y ys ih =>
    rw [List.foldl_cons]
    rcases List.mem_cons.mp hs with h | h
    · rw [h]
      exact le_trans (le_max_right x y) (le_foldl_max ys (max x y))
    · exact ih (max x y) h

theorem foldl_max_mem (xs : List ℚ) (x : ℚ) :
    xs.foldl max x = x ∨ xs.foldl max x ∈ xs := by
  induction xs generalizing x with
  | nil => exact Or.inl rfl
  | cons y ys ih =>
    rcases ih (max x y) with h | h
    · rcases max_choice x y with hx | hy
      · exact Or.inl (by rw [List.foldl_cons, h, hx])
      · exact Or.inr (by rw [List.foldl_cons, h, hy]; exact List.mem_cons_self y ys)
    · exact Or.inr (List.mem_cons_of_mem y h)

theorem pyMax_spec (scores : List ℚ) (h : scores ≠ []) :
    ∃ m, pyMax scores = some m ∧ m ∈ scores ∧ ∀ s ∈ scores, s ≤ m := by
  match scores with
  | [] => exact absurd rfl h
  | x :: xs =>
    refine ⟨xs.foldl max x, rfl, ?_, ?_⟩
    · rcases foldl_max_mem xs x with hm | hm
      · rw [hm]; exact List.mem_cons_self x xs
      · exact List.mem_cons_of_mem x hm
    · intro s hs
      rcases List.mem_cons.mp hs with hsx | hsx
      · rw [hsx]
        exact le_foldl_max xs x
      · exact mem_le_foldl_max xs x s hsx

theorem normalizeWeights_spec (scores : List ℚ) (h : scores ≠ [])
    (hlb : ∀ s ∈ scores, 1/2 ≤ s) :
    ∃ ws, normalizeWeights scores = some ws ∧ (∀ w ∈ ws, 0 < w ∧ w ≤ 1) ∧ 1 ∈ ws := by
  obtain ⟨m, hpy, hmem, hub⟩ := pyMax_spec scores h
  have hm : 0 < m := lt_of_lt_of_le (by norm_num) (hlb m hmem)
  refine ⟨scores.map (fun s => s / m), ?_, ?_, ?_⟩
  · simp [normalizeWeights, hpy]
  · intro w hw
    obtain ⟨s, hs, rfl⟩ := List.mem_map.mp hw
    constructor
    · exact div_pos (lt_of_lt_of_le (by norm_num) (hlb s hs)) hm
    · exact (div_le_one hm).mpr (hub s hs)
  · exact List.mem_map.mpr ⟨m, hmem, div_self (ne_of_gt hm)⟩

theorem half_le_rawScoreA (hh menu ev sp : List ℕ) (r : Restaurant) :
    1/2 ≤ rawScoreA hh menu ev sp r := le_max_right _ _

theorem half_le_rawScoreCI (hh ev : List ℕ) (r : Restaurant) :
    1/2 ≤ rawScoreCI hh ev r := le_max_right _ _

/-- Claim C3: for every non-empty restaurant snapshot and every outcome of the
random draws, the normalized popularity weights all lie in `(0, 1]` and at
least one restaurant — the one carrying the maximum raw score — gets weight
exactly `1`, in both script variants. -/
theorem popularity_weights_spec (hh menu ev sp : List ℕ) (rs : List Restaurant)
    (h : rs ≠ []) :
    (∃ ws, popularityA hh menu ev sp rs = some ws ∧
      (∀ w ∈ ws, 0 < w ∧ w ≤ 1) ∧ 1 ∈ ws) ∧
    (∃ ws, popularityCI hh ev rs = some ws ∧
      (∀ w ∈ ws, 0 < w ∧ w ≤ 1) ∧ 1 ∈ ws) := by
  have hne : ∀ (f : Restaurant → ℚ), rs.map f ≠ [] := by
    intro f hmap
    exact h (List.map_eq_nil_iff.mp hmap)
  constructor
  · exact normalizeWeights_spec _ (hne _)
      (by intro s hs; obtain ⟨r, _, rfl⟩ := List.mem_map.mp hs
          exact half_le_rawScoreA hh menu ev sp r)
  · exact normalizeWeights_spec _ (hne _)
      (by intro s hs; obtain ⟨r, _, rfl⟩ := List.mem_map.mp hs
          exact half_le_rawScoreCI hh ev r)

/-- Concrete run of claim C3's theorem: a one-restaurant snapshot. -/
theorem popularity_weights_spec_witness :
    (∃ ws, popularityA [7] [] [7] [] [⟨7, some 4, true, 2⟩] = some ws ∧
      (∀ w ∈ ws, 0 < w ∧ w ≤ 1) ∧ 1 ∈ ws) ∧
    (∃ ws, popularityCI [7] [7] [⟨7, some 4, true, 2⟩] = some ws ∧
      (∀ w ∈ ws, 0 < w ∧ w ≤ 1) ∧ 1 ∈ ws) :=
  popularity_weights_spec [7] [] [7] [] [⟨7, some 4, true, 2⟩]
    (List.cons_ne_nil _ _)

/-! ## Temporal Distribution Engine: growth multiplier
`backfill-analytics.py` lines 163-164 / 237 and
`backfill-clicks-impressions.py` line 120:
`growth_mult = 0.5 + 0.5 * (day_offset / BACKFILL_DAYS)`. -/

/-- Growth multiplier for day `d` of an `n`-day backfill window. -/
def growthMult (d n : ℕ) : ℚ := 1/2 + 1/2 * ((d : ℚ) / (n : ℚ))

/-- Claim C5, amended: the ramp starts at exactly `0.5` on day 0 and rises to
`1 - 1/(2n)` on the final generated day `n-1`; the value `1.0` is attained
only at the (never generated) day index `n`, and the day-0 multiplier is half
of that day-`n` value. -/
theorem growthMult_ramp_amended (n : ℕ) (h : 1 ≤ n) :
    growthMult 0 n = 1/2 ∧ growthMult n n = 1 ∧
    growthMult (n - 1) n = 1 - 1/(2 * (n : ℚ)) ∧
    2 * growthMult 0 n = growthMult n n := by
  have hn : (n : ℚ) ≠ 0 := Nat.cast_ne_zero.mpr (Nat.one_le_iff_ne_zero.mp h)
  refine ⟨by simp [growthMult], ?_, ?_, ?_⟩
  · rw [growthMult, div_self hn]; norm_num
  · rw [growthMult, Nat.cast_sub h]
    field_simp
    ring
  · rw [growthMult, growthMult, div_self hn]
    norm_num

/-- Concrete run of claim C5's amended theorem at the scripts' actual
`BACKFILL_DAYS = 60`. -/
theorem growthMult_ramp_witness :
    growthMult 0 60 = 1/2 ∧ growthMult 60 60 = 1 ∧
    growthMult (60 - 1) 60 = 1 - 1/(2 * (60 : ℚ)) ∧
    2 * growthMult 0 60 = growthMult 60 60 :=
  growthMult_ramp_amended 60 (by norm_num)

/-- Refutation of claim C5 as stated, at the scripts' `BACKFILL_DAYS = 60`:
on the final day of the window (day 59) the multiplier is `119/120`, not
`1.0`, and the day-0 multiplier `0.5` is not half the day-59 multiplier. -/
theorem growthMult_counterexample :
    growthMult 59 60 = 119/120 ∧ growthMult 59 60 ≠ 1 ∧
    growthMult 0 60 ≠ growthMult 59 60 / 2 := by
  have h59 : growthMult 59 60 = 119/120 := by
    rw [growthMult]; norm_num
  have h0 : growthMult 0 60 = 1/2 := by simp [growthMult]
  refine ⟨h59, by rw [h59]; norm_num, by rw [h59, h0]; norm_num⟩

/-! ## Temporal Distribution Engine: count sampling
`backfill-analytics.py` line 177 (`max(0, int(random.gauss(...)))`, also line
246 for clicks) and `backfill-clicks-impressions.py` lines 129-130
(`int(random.expovariate(...))` capped with `min(..., 8)`). -/

/-- Python `int()` on a real value: truncation toward zero, on `ℚ`. -/
def pyInt (q : ℚ) : ℤ :=
  if q < 0 then -((q.num.natAbs / q.den : ℕ) : ℤ) else ((q.num.natAbs / q.den : ℕ) : ℤ)

/-- Count drawn in the analytics variant: `max(0, int(g))` where `g` is the
Gaussian draw (any real outcome). -/
def gaussCount (g : ℚ) : ℤ := max 0 (pyInt g)

/-- Count drawn in the clicks-impressions variant: `min(int(e), 8)` where `e`
is the exponential-variate draw (always a non-negative real). -/
def expoCount (e : ℚ) : ℤ := min (pyInt e) 8

theorem pyInt_nonneg (q : ℚ) (h : 0 ≤ q) : 0 ≤ pyInt q := by
  rw [pyInt, if_neg (not_lt.mpr h)]
  exact Int.ofNat_nonneg _

/-- Claim C8: for every outcome of the random draws the sampled event count is
a non-negative integer, in both variants (the exponential draw `e` is
non-negative by definition of `random.expovariate` with a positive rate). -/
theorem event_counts_nonneg (g e : ℚ) (he : 0 ≤ e) :
    0 ≤ gaussCount g ∧ 0 ≤ expoCount e := by
  constructor
  · exact le_max_left 0 (pyInt g)
  · exact le_min (pyInt_nonneg e he) (by norm_num)

/-- Concrete run of claim C8's theorem: a negative Gaussian draw and the
exponential draw `3`. -/
theorem event_counts_nonneg_witness :
    0 ≤ gaussCount (-4) ∧ 0 ≤ expoCount 3 :=
  event_counts_nonneg (-4) 3 (by norm_num)

/-! ## Impression synthesizer
`backfill-clicks-impressions.py` lines 149-193 and `backfill-analytics.py`
lines 301-334.  The loop nest (days → epochs → sections → shown restaurants →
viewer draws) is embedded as a list of cell plans: one cell per
(epoch, section) pair, carrying the sampled `shown_restaurants` list and, for
each shown restaurant, the list of `(visitor, timestamp)` viewer draws.  The
nested `for` loops amount to emitting the cells' proposals in order; the
clicks-impressions variant additionally threads the `seen_keys` set through
that stream, the analytics variant emits them all. -/

structure Impression where
  restaurant_id : ℕ
  section_name : String
  position_index : ℕ
  visitor_id : String
  epoch_seed : ℤ
  impressed_at : ℤ
deriving DecidableEq

/-- The composite key `(restaurant_id, section_name, visitor_id, epoch_seed)`
tracked by `seen_keys` (clicks-impressions line 173) and enforced by the
store's unique constraint. -/
def impKey (i : Impression) : ℕ × String × String × ℤ :=
  (i.restaurant_id, i.section_name, i.visitor_id, i.epoch_seed)

/-- One (epoch, section) cell of the impression loops: the epoch seed and
section name fixed by the outer loops, and the random draws made inside —
the sampled shown restaurants, each with its viewer draws. -/
structure CellPlan where
  epoch_seed : ℤ
  section_name : String
  shown : List (ℕ × List (String × ℤ))
deriving DecidableEq

/-- Records proposed by one cell: `for position, rid in
enumerate(shown_restaurants)` then one record per viewer draw. -/
def cellProposals (c : CellPlan) : List Impression :=
  c.shown.enum.flatMap (fun p =>
    p.2.2.map (fun v => ⟨p.2.1, c.section_name, p.1, v.1, c.epoch_seed, v.2⟩))

/-- Threading of a seen-key set through a record stream: a record whose key
was already seen is skipped (`continue`), otherwise its key is added and the
record emitted.  This is the `seen_keys` logic of clicks-impressions lines
173-177, and the `used_pairs` logic of analytics lines 281-284. -/
def dedupFoldAux {κ ρ : Type} [DecidableEq κ] (key : ρ → κ) :
    List κ × List ρ → List ρ → List κ × List ρ
  | st, [] => st
  | (seen, acc), p :: ps =>
    if key p ∈ seen then dedupFoldAux key (seen, acc) ps
    else dedupFoldAux key (key p :: seen, acc ++ [p]) ps

/-- Impression generation of the clicks-impressions variant (lines 151-192):
all cells' proposals in loop order, filtered through `seen_keys`. -/
def genImpressionsCI (cells : List CellPlan) : List Impression :=
  (dedupFoldAux impKey ([], []) (cells.flatMap cellProposals)).2

/-- Impression generation of the analytics variant (lines 303-334): all
cells' proposals are appended unconditionally — there is no `seen_keys`
check in that script. -/
def genImpressionsA (cells : List CellPlan) : List Impression :=
  cells.flatMap cellProposals

theorem dedupFoldAux_nodup {κ ρ : Type} [DecidableEq κ] (key : ρ → κ)
    (ps : List ρ) (seen : List κ) (acc : List ρ)
    (h1 : (acc.map key).Nodup) (h2 : ∀ k ∈ acc.map key, k ∈ seen) :
    ((dedupFoldAux key (seen, acc) ps).2.map key).Nodup := by
  induction ps generalizing seen acc with
  | nil => exact h1
  | cons p ps ih =>
    rw [dedupFoldAux]
    by_cases hp : key p ∈ seen
    · rw [if_pos hp]
      exact ih seen acc h1 h2
    · rw [if_neg hp]
      refine ih (key p :: seen) (acc ++ [p]) ?_ ?_
      · rw [List.map_append, List.nodup_append]
        refine ⟨h1, List.nodup_singleton _, ?_⟩
        intro k hk hk1
        rw [List.map_singleton, List.mem_singleton] at hk1
        exact hp (hk1 ▸ h2 k hk)
      · intro k hk
        rw [List.map_append, List.mem_append] at hk
        rcases hk with hk | hk
        · exact List.mem_cons_of_mem _ (h2 k hk)
        · rw [List.map_singleton, List.mem_singleton] at hk
          rw [hk]
          exact List.mem_cons_self _ _

theorem dedupFoldAux_mem {κ ρ : Type} [DecidableEq κ] (key : ρ → κ)
    (ps : List ρ) (seen : List κ) (acc : List ρ) (x : ρ)
    (hx : x ∈ (dedupFoldAux key (seen, acc) ps).2) : x ∈ acc ∨ x ∈ ps := by
  induction ps generalizing seen acc with
  | nil => exact Or.inl hx
  | cons p ps ih =>
    rw [dedupFoldAux] at hx
    by_cases hp : key p ∈ seen
    · rw [if_pos hp] at hx
      rcases ih seen acc hx with h | h
      · exact Or.inl h
      · exact Or.inr (List.mem_cons_of_mem p h)
    · rw [if_neg hp] at hx
      rcases ih (key p :: seen) (acc ++ [p]) hx with h | h
      · rw [List.mem_append, List.mem_singleton] at h
        rcases h with h | h
        · exact Or.inl h
        · exact Or.inr (h ▸ List.mem_cons_self p ps)
      · exact Or.inr (List.mem_cons_of_mem p h)

/-- Claim C1, amended: in the clicks-and-impressions variant the generated
impression records carry pairwise distinct
`(restaurant, section, visitor, epoch)` keys, for every outcome of the random
draws (every possible cell plan). -/
theorem impressionsCI_keys_nodup (cells : List CellPlan) :
    ((genImpressionsCI cells).map impKey).Nodup :=
  dedupFoldAux_nodup impKey (cells.flatMap cellProposals) [] []
    List.nodup_nil (by intro k hk; cases hk)

/-- Validity of a cell of the analytics impression loops (lines 315-325):
the section is one of the fixed section names, `num_shown` is drawn from
`randint(20, 60)` and the shown list is a `random.sample` of the restaurant
ids (distinct, of size `min(num_shown, len(restaurant_ids))`), each shown
restaurant gets `randint(2, 8)` viewer draws, and every visitor is either the
shared `"anonymous"` token or a real user id. -/
def ValidCellA (restaurant_ids : List ℕ) (user_ids : List String)
    (c : CellPlan) : Prop :=
  c.section_name ∈ ["featured", "happy_hours", "other_places", "entertainment",
    "events", "search", "category", "specials_view_all", "happy_hours_view_all"] ∧
  (∃ numShown, 20 ≤ numShown ∧ numShown ≤ 60 ∧
    c.shown.length = min numShown restaurant_ids.length) ∧
  (c.shown.map Prod.fst).Nodup ∧
  ∀ p ∈ c.shown, p.1 ∈ restaurant_ids ∧ 2 ≤ p.2.length ∧ p.2.length ≤ 8 ∧
    ∀ v ∈ p.2, v.1 = "anonymous" ∨ v.1 ∈ user_ids

/-- A reachable single-cell draw of the analytics impression loops: one
active restaurant (id 0), an empty user pool, `num_shown = 20` (so the sample
is the single restaurant), two viewer draws, both resolving to the shared
`"anonymous"` token. -/
def dupCellA : CellPlan :=
  ⟨0, "featured", [(0, [("anonymous", 100), ("anonymous", 200)])]⟩

/-- Refutation of claim C1 as stated for the analytics variant: a valid
outcome of the random draws under which the generated impression set contains
two records with the same (restaurant, section, visitor, epoch) tuple. -/
theorem impressionsA_dup_counterexample :
    ValidCellA [0] [] dupCellA ∧
    ¬ ((genImpressionsA [dupCellA]).map impKey).Nodup := by
  constructor
  · refine ⟨by decide, ⟨20, by decide, by decide, by decide⟩, by decide, ?_⟩
    decide
  · decide

/-! ## Favorite synthesizer
`backfill-analytics.py` lines 265-294.  Per user the script draws a candidate
restaurant list (a `random.sample` sorted by popularity and truncated) and,
per kept candidate, the `randint` draws `days_ago ∈ [1, 45]`,
`hours ∈ [0, 23]`, `minutes ∈ [0, 59]` for the favorited-at timestamp
`NOW - timedelta(days, hours, minutes)`.  The plan for one user is the pair
(user id, list of `(restaurant_id, days, hours, minutes)` draws); the
`used_pairs` set is threaded through all users' candidates in loop order. -/

structure Favorite where
  user_id : String
  restaurant_id : ℕ
  created_at : ℤ
deriving DecidableEq

/-- The `(user_id, restaurant_id)` pair tracked by `used_pairs`. -/
def favPair (f : Favorite) : String × ℕ := (f.user_id, f.restaurant_id)

/-- Offset of `timedelta(days=d, hours=h, minutes=m)` in minutes. -/
def favOffsetMinutes (d h m : ℕ) : ℕ := d * 1440 + h * 60 + m

/-- Candidate favorite records of one user: `created_at` is minutes relative
to the script constant `NOW` (negative = in the past). -/
def userFavRecords (uid : String) (draws : List (ℕ × ℕ × ℕ × ℕ)) :
    List Favorite :=
  draws.map (fun dr => ⟨uid, dr.1, -((favOffsetMinutes dr.2.1 dr.2.2.1 dr.2.2.2 : ℕ) : ℤ)⟩)

/-- Favorite generation (lines 267-294): all users' candidate records in loop
order, filtered through the `used_pairs` set — a colliding pair is skipped
with `continue`, never retried. -/
def genFavorites (plans : List (String × List (ℕ × ℕ × ℕ × ℕ))) :
    List Favorite :=
  (dedupFoldAux favPair ([], [])
    (plans.flatMap (fun pu => userFavRecords pu.1 pu.2))).2

/-- Claim C2: across all users and all random draws, the generated favorite
records carry pairwise distinct `(user, restaurant)` pairs. -/
theorem favorites_pairs_nodup (plans : List (String × List (ℕ × ℕ × ℕ × ℕ))) :
    ((genFavorites plans).map favPair).Nodup :=
  dedupFoldAux_nodup favPair
    (plans.flatMap (fun pu => userFavRecords pu.1 pu.2)) [] []
    List.nodup_nil (by intro k hk; cases hk)

/-- Validity of the favorite-timestamp draws: `randint(1, 45)` days,
`randint(0, 23)` hours, `randint(0, 59)` minutes (lines 287-288). -/
def ValidFavPlans (plans : List (String × List (ℕ × ℕ × ℕ × ℕ))) : Prop :=
  ∀ pu ∈ plans, ∀ dr ∈ pu.2,
    1 ≤ dr.2.1 ∧ dr.2.1 ≤ 45 ∧ dr.2.2.1 ≤ 23 ∧ dr.2.2.2 ≤ 59

/-- Claim C9, amended: every generated favorite's `created_at` lies between
`NOW - 45 days - 23 hours - 59 minutes` (that is, `-66239` minutes) and
`NOW - 1 day` — within the most recent 46 days, not 45, and always at least
one day in the past. -/
theorem favorite_timestamp_window_amended
    (plans : List (String × List (ℕ × ℕ × ℕ × ℕ))) (f : Favorite)
    (hv : ValidFavPlans plans) (hf : f ∈ genFavorites plans) :
    -66239 ≤ f.created_at ∧ f.created_at ≤ -1440 := by
  have hmem : f ∈ plans.flatMap (fun pu => userFavRecords pu.1 pu.2) := by
    rcases dedupFoldAux_mem favPair _ [] [] f hf with h | h
    · cases h
    · exact h
  obtain ⟨pu, hpu, hfu⟩ := List.mem_flatMap.mp hmem
  obtain ⟨dr, hdr, rfl⟩ := List.mem_map.mp hfu
  obtain ⟨h1, h45, h23, h59⟩ := hv pu hpu dr hdr
  simp only [favOffsetMinutes]
  omega

/-- Concrete run of claim C9's amended theorem: a single user favoriting
restaurant 0 with draws `days_ago = 1`, `hours = 0`, `minutes = 0`. -/
theorem favorite_timestamp_window_witness :
    -66239 ≤ (⟨"u", 0, -1440⟩ : Favorite).created_at ∧
    (⟨"u", 0, -1440⟩ : Favorite).created_at ≤ -1440 :=
  favorite_timestamp_window_amended [("u", [(0, 1, 0, 0)])] ⟨"u", 0, -1440⟩
    (by unfold ValidFavPlans; decide) (by decide)

/-- Refutation of claim C9 as stated: with the valid draws `days_ago = 45`,
`hours = 23`, `minutes = 59` the generated favorite's `created_at` is
`NOW - 66239` minutes, strictly earlier than `NOW - 45` days
(`45 * 1440 = 64800` minutes). -/
theorem favorite_timestamp_counterexample :
    ValidFavPlans [("u", [(0, 45, 23, 59)])] ∧
    genFavorites [("u", [(0, 45, 23, 59)])] = [⟨"u", 0, -66239⟩] ∧
    (-66239 : ℤ) < -(45 * 1440) := by
  refine ⟨by unfold ValidFavPlans; decide, by decide, by decide⟩

/-! ## View synthesizer
`backfill-analytics.py` lines 179-222.  Per sampled base view the script
draws a visitor, a timestamp, and three `random.random()` comparisons gating
the conditional tab views; one plan entry carries those draws, with the three
comparisons pre-resolved to booleans (`drawHH` is the outcome of
`random.random() < 0.35`, and so on). -/

structure PageView where
  page_type : String
  restaurant_id : ℕ
  visitor_id : String
  viewed_at : ℤ
deriving DecidableEq

structure ViewPlan where
  rid : ℕ
  visitor : String
  ts : ℤ
  drawHH : Bool
  drawMenu : Bool
  drawEvents : Bool
deriving DecidableEq

/-- Records emitted for one sampled base view (lines 183-222): the base
`"restaurant"` view, then a `"happy_hour"` / `"menu"` / `"events"` tab view
when the restaurant is in the corresponding content set and the conditional
draw fired, all sharing the base view's visitor and timestamp. -/
def genViewEvent (hh menu ev : List ℕ) (p : ViewPlan) : List PageView :=
  ⟨"restaurant", p.rid, p.visitor, p.ts⟩ ::
    ((if p.rid ∈ hh ∧ p.drawHH = true then
        [⟨"happy_hour", p.rid, p.visitor, p.ts⟩] else []) ++
     (if p.rid ∈ menu ∧ p.drawMenu = true then
        [⟨"menu", p.rid, p.visitor, p.ts⟩] else []) ++
     (if p.rid ∈ ev ∧ p.drawEvents = true then
        [⟨"events", p.rid, p.visitor, p.ts⟩] else []))

/-- Page-view generation over the whole run: one `genViewEvent` per sampled
base view, in loop order. -/
def genPageViews (hh menu ev : List ℕ) (plans : List ViewPlan) :
    List PageView :=
  plans.flatMap (genViewEvent hh menu ev)

theorem genViewEvent_happy_hour (hh menu ev : List ℕ) (p : ViewPlan)
    (v : PageView) (hv : v ∈ genViewEvent hh menu ev p)
    (ht : v.page_type = "happy_hour") : v.restaurant_id ∈ hh := by
  rw [genViewEvent] at hv
  rcases List.mem_cons.mp hv with h | h
  · rw [h] at ht
    simp at ht
  · rw [List.mem_append, List.mem_append] at h
    rcases h with (h | h) | h
    · by_cases hc : p.rid ∈ hh ∧ p.drawHH = true
      · rw [if_pos hc, List.mem_singleton] at h
        rw [h]
        exact hc.1
      · rw [if_neg hc] at h
        cases h
    · by_cases hc : p.rid ∈ menu ∧ p.drawMenu = true
      · rw [if_pos hc, List.mem_singleton] at h
        rw [h] at ht
        simp at ht
      · rw [if_neg hc] at h
        cases h
    · by_cases hc : p.rid ∈ ev ∧ p.drawEvents = true
      · rw [if_pos hc, List.mem_singleton] at h
        rw [h] at ht
        simp at ht
      · rw [if_neg hc] at h
        cases h

/-- Claim C6: a restaurant outside the happy-hour content set contributes
zero happy-hour-tab views over the entire run, for every outcome of the
random draws. -/
theorem no_happy_hour_views_without_flag (hh menu ev : List ℕ)
    (plans : List ViewPlan) (rid : ℕ) (h : rid ∉ hh) :
    (genPageViews hh menu ev plans).filter
      (fun v => v.page_type == "happy_hour" && v.restaurant_id == rid) = [] := by
  rw [List.filter_eq_nil_iff]
  intro v hv hfilter
  rw [Bool.and_eq_true, beq_iff_eq, beq_iff_eq] at hfilter
  obtain ⟨p, _, hvp⟩ := List.mem_flatMap.mp hv
  exact h (hfilter.2 ▸ genViewEvent_happy_hour hh menu ev p v hvp hfilter.1)

/-- Concrete run of claim C6's theorem: a restaurant (id 3) with no
happy-hour content, one sampled base view with all conditional draws firing. -/
theorem no_happy_hour_views_without_flag_witness :
    (genPageViews [] [3] [3] [⟨3, "anonymous", 0, true, true, true⟩]).filter
      (fun v => v.page_type == "happy_hour" && v.restaurant_id == 3) = [] :=
  no_happy_hour_views_without_flag [] [3] [3]
    [⟨3, "anonymous", 0, true, true, true⟩] 3 (by decide)

/-! ## Fatal path of `main`
`backfill-analytics.py` lines 89-150 (and the same shape in
`backfill-clicks-impressions.py` lines 79-110): after the snapshot loads,
`max_pop = max(popularity.values())` raises an unhandled `ValueError` when
the restaurant snapshot — and with it the `popularity` dict — is empty.  No
check guards an empty user pool: `generate_visitor_id` falls back to the
anonymous token and the favorites loop simply runs zero iterations.  The
run up to the point where all event records exist is modelled as an
`Except`. -/

structure RunOutput where
  page_views : List PageView
  favorites : List Favorite
  impressions : List Impression

/-- The analytics `main` up to and including record generation: fetch results
and all random draws are inputs; the only exit before the generated records
exist is the `ValueError` from `max()` on an empty popularity dict. -/
def mainPipeline (restaurants : List Restaurant) (hh menu ev sp : List ℕ)
    (user_ids : List String) (viewPlans : List ViewPlan)
    (favDraws : String → List (ℕ × ℕ × ℕ × ℕ)) (impCells : List CellPlan) :
    Except String RunOutput :=
  match pyMax (restaurants.map (rawScoreA hh menu ev sp)) with
  | none => Except.error "ValueError: max() arg is an empty sequence"
  | some _ => Except.ok
      ⟨genPageViews hh menu ev viewPlans,
       genFavorites (user_ids.map (fun u => (u, favDraws u))),
       genImpressionsA impCells⟩

/-- Claim C7, amended: the run aborts before event generation exactly when
the restaurant snapshot is empty (an unhandled `ValueError` from `max()` on
the empty popularity dict); any other input — in particular an empty user
pool — lets generation complete. -/
theorem mainPipeline_fatal_iff_no_restaurants (restaurants : List Restaurant)
    (hh menu ev sp : List ℕ) (user_ids : List String)
    (viewPlans : List ViewPlan) (favDraws : String → List (ℕ × ℕ × ℕ × ℕ))
    (impCells : List CellPlan) :
    (mainPipeline restaurants hh menu ev sp user_ids viewPlans favDraws
      impCells).isOk = !restaurants.isEmpty := by
  cases restaurants with
  | nil => rfl
  | cons r rs => rfl

/-- Refutation of claim C7 as stated: with a non-empty restaurant snapshot
and an empty user pool the run does not abort — it completes generation (and
simply emits no favorites), so an empty user pool is not fatal. -/
theorem mainPipeline_empty_users_counterexample :
    (mainPipeline [⟨0, none, false, 2⟩] [] [] [] [] [] []
      (fun _ => []) []).isOk = true ∧
    (mainPipeline [⟨0, none, false, 2⟩] [] [] [] [] [] []
      (fun _ => []) []).toOption.map RunOutput.favorites = some [] := by
  constructor
  · rfl
  · rfl

/-! ## Batch Ingestion Client
`backfill-analytics.py` lines 44-67 (`sb_post` with the row-by-row fallback)
and `backfill-clicks-impressions.py` lines 42-58 (`sb_post` without it).
Whether a batch request raises `HTTPError` is decided by the remote store;
that outcome is an input (`fails`, indexed by the batch number `i // BATCH`).
The trace records every request issued, in order. -/

inductive Req (α : Type) where
  | batch (rows : List α)
  | single (batchIdx : ℕ) (row : α)
deriving DecidableEq

/-- Structural worker for `chunks`: the fuel starts at the list length, which
bounds the iteration count of `range(0, len(rows), BATCH)` since every
iteration consumes at least one element. -/
def chunksGo (n : ℕ) : ℕ → List α → List (List α)
  | 0, _ => []
  | _, [] => []
  | fuel + 1, x :: xs => (x :: xs).take n :: chunksGo n fuel (xs.drop (n - 1))

/-- Partition into contiguous batches: `for i in range(0, len(rows), BATCH):
batch = rows[i:i + BATCH]`. -/
def chunks (n : ℕ) (l : List α) : List (List α) := chunksGo n l.length l

/-- Requests issued for the batch list, analytics variant: one batch request
per batch and, when the store rejects that batch (lines 55-66), one
individual request per row of the failed batch. -/
def sbReqsA (fails : ℕ → Bool) : ℕ → List (List α) → List (Req α)
  | _, [] => []
  | j, b :: bs =>
    (Req.batch b :: (if fails j then b.map (Req.single j) else []))
      ++ sbReqsA fails (j + 1) bs

/-- Trace of `sb_post` in `backfill-analytics.py` (lines 44-67). -/
def sbPostA (rows : List α) (fails : ℕ → Bool) : List (Req α) :=
  sbReqsA fails 0 (chunks 500 rows)

/-- Trace of `sb_post` in `backfill-clicks-impressions.py` (lines 42-58): a
failed batch is only logged — no row-by-row fallback exists there. -/
def sbPostCI (rows : List α) (fails : ℕ → Bool) : List (Req α) :=
  (chunks 500 rows).map Req.batch

/-- Sizes of the batch requests of a trace, in order. -/
def batchSizes (t : List (Req α)) : List ℕ :=
  t.filterMap (fun r => match r with
    | Req.batch b => some b.length
    | Req.single _ _ => none)

/-- Batch indexes of the individual fallback requests of a trace, in order. -/
def singleIdxs (t : List (Req α)) : List ℕ :=
  t.filterMap (fun r => match r with
    | Req.batch _ => none
    | Req.single j _ => some j)

set_option maxRecDepth 10000 in
/-- Claim C4, amended: on 1,200 records with batch size 500 both variants
issue exactly 3 batch requests of sizes 500, 500, 200 in order; when the
store rejects the second batch, the analytics variant issues exactly 500
individual fallback requests, all for that batch (and none for the others). -/
theorem sbPost_1200_trace :
    batchSizes (sbPostA (List.replicate 1200 0) (fun j => j == 1)) =
      [500, 500, 200] ∧
    singleIdxs (sbPostA (List.replicate 1200 0) (fun j => j == 1)) =
      List.replicate 500 1 ∧
    batchSizes (sbPostCI (List.replicate 1200 0) (fun j => j == 1)) =
      [500, 500, 200] := by
  refine ⟨by decide, by decide, by decide⟩

set_option maxRecDepth 10000 in
/-- Refutation of claim C4 as stated for the clicks-impressions variant: on
the same 1,200 records with the second batch rejected, that variant issues
no individual fallback request at all (the claim demands 500). -/
theorem sbPostCI_no_fallback_counterexample :
    singleIdxs (sbPostCI (List.replicate 1200 0) (fun j => j == 1)) = [] ∧
    ([] : List ℕ) ≠ List.replicate 500 1 := by
  refine ⟨by decide, by decide⟩

/-! ## Impression volume cap
`backfill-clicks-impressions.py` lines 195-198: `if len(impressions) >
200000: impressions = random.sample(impressions, 200000)`.  The outcome of
`random.sample(impressions, 200000)` — 200,000 records drawn from the list —
is the input `sampled`. -/

def capImpressions (xs sampled : List α) : List α :=
  if 200000 < xs.length then sampled else xs

/-- Claim C10: the submitted impression list never exceeds 200,000 records —
a larger generated list is replaced by the 200,000-record sample, a list at
or below the cap is submitted unchanged.  The hypothesis states what
`random.sample(xs, 200000)` guarantees about its result. -/
theorem impressions_cap_200000 (xs sampled : List α)
    (h : 200000 < xs.length →
      sampled.length = 200000 ∧ ∀ a ∈ sampled, a ∈ xs) :
    (xs.length ≤ 200000 → capImpressions xs sampled = xs) ∧
    (200000 < xs.length → (capImpressions xs sampled).length = 200000 ∧
      ∀ a ∈ capImpressions xs sampled, a ∈ xs) := by
  constructor
  · intro hle
    rw [capImpressions, if_neg (not_lt.mpr hle)]
  · intro hgt
    rw [capImpressions, if_pos hgt]
    exact h hgt

/-- Concrete run of claim C10's theorem: 200,001 generated records, sampled
down by keeping the first 200,000. -/
theorem impressions_cap_200000_witness :
    ((List.replicate 200001 0).length ≤ 200000 →
      capImpressions (List.replicate 200001 0)
        ((List.replicate 200001 0).take 200000) = List.replicate 200001 0) ∧
    (200000 < (List.replicate 200001 0).length →
      (capImpressions (List.replicate 200001 0)
        ((List.replicate 200001 0).take 200000)).length = 200000 ∧
      ∀ a ∈ capImpressions (List.replicate 200001 0)
        ((List.replicate 200001 0).take 200000),
        a ∈ List.replicate 200001 0) :=
  impressions_cap_200000 (List.replicate 200001 0)
    ((List.replicate 200001 0).take 200000)
    (by intro hgt
        refine ⟨?_, ?_⟩
        · rw [List.take_replicate, List.length_replicate]
          norm_num
        · rw [List.take_replicate]
          intro a ha
          rw [List.mem_replicate] at ha ⊢
          exact ⟨by norm_num, ha.2⟩)

end Backfill
